import Mathlib

/-!
Verification of the secure credential generator and strength evaluator of
`Python-Programming/Task-3-Password-Generator/password_generator.py`.

The Python code is shallowly embedded: the cryptographically secure draws made
through the `secrets` module are modelled by an explicit stream `sec : Nat → Nat`
consumed positionally (`secrets.choice(seq)` picks `seq[d % len(seq)]` for the
next stream value `d`, `secrets.randbelow(n)` is `d % n`), and the draws made by
the NON-cryptographic `random` module (used by the source only in
`random.shuffle`) are a second, separate stream `ins : Nat → Nat`.  The mutable
`self.history` list is passed and returned explicitly.  Characters are Lean
`Char`s; the embedding covers the ASCII fragment of Python's string predicates,
which is exact on every string the program itself can produce.
-/

/-- `string.ascii_lowercase` (`self.lowercase` in `PasswordGenerator.__init__`). -/
def lowercase : List Char := "abcdefghijklmnopqrstuvwxyz".toList

/-- `string.ascii_uppercase` (`self.uppercase`). -/
def uppercase : List Char := "ABCDEFGHIJKLMNOPQRSTUVWXYZ".toList

/-- `string.digits` (`self.digits`). -/
def digits : List Char := "0123456789".toList

/-- `string.punctuation` (`self.symbols`): the 32 ASCII punctuation characters. -/
def symbols : List Char := "!\"#$%&\x27()*+,-./:;<=>?@[\\]^_\x60\x7b|\x7d~".toList

/-- The lowercase alphabet actually drawn from: `chars.replace('l','').replace('o','')`
when `exclude_ambiguous`, otherwise the full alphabet. -/
def lowerPool (excl : Bool) : List Char :=
  if excl then lowercase.filter (fun c => decide (c ≠ 'l') && decide (c ≠ 'o')) else lowercase

/-- The uppercase alphabet actually drawn from: `chars.replace('I','').replace('O','')`
when `exclude_ambiguous`, otherwise the full alphabet. -/
def upperPool (excl : Bool) : List Char :=
  if excl then uppercase.filter (fun c => decide (c ≠ 'I') && decide (c ≠ 'O')) else uppercase

/-- The digit alphabet actually drawn from: `chars.replace('0','').replace('1','')`
when `exclude_ambiguous`, otherwise the full alphabet. -/
def digitPool (excl : Bool) : List Char :=
  if excl then digits.filter (fun c => decide (c ≠ '0') && decide (c ≠ '1')) else digits

/-- The keyword arguments of `PasswordGenerator.generate_password`, in source order. -/
structure GenConfig where
  length : Nat
  use_upper : Bool
  use_lower : Bool
  use_digits : Bool
  use_symbols : Bool
  exclude_ambiguous : Bool
deriving DecidableEq, Repr

/-- `generate_password` returns either the password string or one of its two
error strings; we separate the two shapes in an explicit sum. -/
inductive PGResult where
  | password (p : List Char)
  | error (msg : String)
deriving DecidableEq, Repr

def invalid_length_msg : String := "Error: Password length must be at least 4 characters"

def no_class_msg : String := "Error: At least one character type must be selected"

/-- `secrets.choice(l)`: the element at the next secure index.  `l.getD` with a
default is the total model; every call site passes a non-empty list. -/
def secChoice (sec : Nat → Nat) (t : Nat) (l : List Char) : Char :=
  l.getD (sec t % l.length) 'a'

/-- The simultaneous assignment `x[i], x[j] = x[j], x[i]` inside `random.shuffle`. -/
def listSwap (l : List Char) (i j : Nat) : List Char :=
  match l[i]?, l[j]? with
  | some a, some b => (l.set i b).set j a
  | _, _ => l

/-- The loop of CPython's `random.shuffle`: `for i in reversed(range(1, len(x))):
j = randbelow(i + 1); x[i], x[j] = x[j], x[i]`, with the non-cryptographic draws
modelled by the stream `draws` consumed positionally. -/
def shuffleRounds (draws : Nat → Nat) : List Char → Nat → Nat → List Char
  | l, 0, _ => l
  | l, i + 1, t => shuffleRounds draws (listSwap l (i + 1) (draws t % (i + 2))) i (t + 1)

/-- `random.shuffle(password_chars)` — the source's final (non-cryptographic) shuffle. -/
def randomShuffle (draws : Nat → Nat) (l : List Char) : List Char :=
  shuffleRounds draws l (l.length - 1) 0

/-- Number of enabled character classes (`len(required_chars)` on the success path). -/
def enabledCount (cfg : GenConfig) : Nat :=
  cfg.use_lower.toNat + cfg.use_upper.toNat + cfg.use_digits.toNat + cfg.use_symbols.toNat

/-- `char_pool`: built by `char_pool += chars` in source order lower, upper, digits,
symbols, each block filtered when `exclude_ambiguous`. -/
def poolOf (cfg : GenConfig) : List Char :=
  (if cfg.use_lower then lowerPool cfg.exclude_ambiguous else []) ++
    ((if cfg.use_upper then upperPool cfg.exclude_ambiguous else []) ++
      ((if cfg.use_digits then digitPool cfg.exclude_ambiguous else []) ++
        (if cfg.use_symbols then symbols else [])))

/-- `required_chars`: one `secrets.choice` per enabled class, appended in source
order lower, upper, digits, symbols; the stream position of each draw is the
number of draws made before it. -/
def requiredOf (cfg : GenConfig) (sec : Nat → Nat) : List Char :=
  (if cfg.use_lower then [secChoice sec 0 (lowerPool cfg.exclude_ambiguous)] else []) ++
    ((if cfg.use_upper then
        [secChoice sec cfg.use_lower.toNat (upperPool cfg.exclude_ambiguous)] else []) ++
      ((if cfg.use_digits then
          [secChoice sec (cfg.use_lower.toNat + cfg.use_upper.toNat)
            (digitPool cfg.exclude_ambiguous)] else []) ++
        (if cfg.use_symbols then
          [secChoice sec (cfg.use_lower.toNat + cfg.use_upper.toNat + cfg.use_digits.toNat)
            symbols] else [])))

/-- `[secrets.choice(char_pool) for _ in range(remaining_length)]` with
`remaining_length = length - len(required_chars)`; the draws continue the secure
stream after the `enabledCount cfg` mandatory draws. -/
def fillersOf (cfg : GenConfig) (sec : Nat → Nat) : List Char :=
  (List.range (cfg.length - enabledCount cfg)).map
    (fun i => secChoice sec (enabledCount cfg + i) (poolOf cfg))

/-- `PasswordGenerator.generate_password`.  Checks `length < 4` first, then
`if not char_pool`; on success shuffles `required_chars ++ fillers` with the
non-cryptographic stream `ins` and appends the password to the history. -/
def generate_password (cfg : GenConfig) (sec ins : Nat → Nat) (hist : List (List Char)) :
    PGResult × List (List Char) :=
  if cfg.length < 4 then
    (PGResult.error invalid_length_msg, hist)
  else if poolOf cfg = [] then
    (PGResult.error no_class_msg, hist)
  else
    (PGResult.password (randomShuffle ins (requiredOf cfg sec ++ fillersOf cfg sec)),
      hist ++ [randomShuffle ins (requiredOf cfg sec ++ fillersOf cfg sec)])

/-- The fixed word list of `generate_passphrase`, in source order. -/
def words : List (List Char) :=
  ["alpha", "bravo", "charlie", "delta", "echo", "foxtrot", "golf",
   "hotel", "india", "juliett", "kilo", "lima", "mike", "november",
   "oscar", "papa", "quebec", "romeo", "sierra", "tango", "uniform",
   "victor", "whiskey", "xray", "yankee", "zulu", "ocean", "mountain",
   "river", "forest", "desert", "island", "valley", "canyon", "summit"].map String.toList

/-- Python `str.capitalize()` on the ASCII fragment: first character uppercased,
the rest lowercased. -/
def capitalize : List Char → List Char
  | [] => []
  | c :: cs => c.toUpper :: cs.map Char.toLower

/-- `secrets.choice(words)`, the word-list analogue of `secChoice`. -/
def wordChoice (sec : Nat → Nat) (t : Nat) (l : List (List Char)) : List Char :=
  l.getD (sec t % l.length) []

/-- Python `'-'.join`. -/
def joinHyphen : List (List Char) → List Char
  | [] => []
  | [w] => w
  | w :: ws => w ++ '-' :: joinHyphen ws

/-- Python `str(n)` for a natural number: its decimal digit characters. -/
def pyStr (n : Nat) : List Char := Nat.toDigits 10 n

/-- `PasswordGenerator.generate_passphrase`.  The source performs NO validation of
`word_count`: it draws `word_count` words (stream positions `0 .. word_count-1`),
capitalizes each, joins with `'-'`, appends `str(secrets.randbelow(100))`
(stream position `word_count`), appends the result to the history and returns it. -/
def generate_passphrase (word_count : Nat) (sec : Nat → Nat) (hist : List (List Char)) :
    List Char × List (List Char) :=
  let selected_words := (List.range word_count).map (fun i => capitalize (wordChoice sec i words))
  let passphrase := joinHyphen selected_words ++ pyStr (sec word_count % 100)
  (passphrase, hist ++ [passphrase])

/-- The guard `if 3 <= word_count <= 6` that the Shell (`main`) applies before it
ever calls `generate_passphrase`. -/
def shellAcceptsWordCount (word_count : Nat) : Bool :=
  decide (3 ≤ word_count) && decide (word_count ≤ 6)

/-- Python `c.islower()` on the ASCII fragment. -/
def pyIsLower (c : Char) : Bool := decide ('a' ≤ c) && decide (c ≤ 'z')

/-- Python `c.isupper()` on the ASCII fragment. -/
def pyIsUpper (c : Char) : Bool := decide ('A' ≤ c) && decide (c ≤ 'Z')

/-- Python `c.isdigit()` on the ASCII fragment. -/
def pyIsDigit (c : Char) : Bool := decide ('0' ≤ c) && decide (c ≤ '9')

/-- Python `c.isspace()` on the ASCII fragment:
`\t \n \x0b \x0c \r \x1c \x1d \x1e \x1f` and space. -/
def pyIsSpace (c : Char) : Bool :=
  [' ', '\t', '\n', '\r', '\x0b', '\x0c', '\x1c', '\x1d', '\x1e', '\x1f'].contains c

/-- The record returned by `check_strength`. -/
structure StrengthReport where
  strength : String
  score : Nat
  feedback : List String
deriving DecidableEq, Repr

/-- `PasswordGenerator.check_strength`, as the source's sequence of
score/feedback updates: length check, then lowercase, uppercase, digit, and
`c in string.punctuation` checks, then the strength label from the final score. -/
def check_strength (password : List Char) : StrengthReport :=
  let s1 : Nat × List String :=
    if 12 ≤ password.length then (2, [])
    else if 8 ≤ password.length then (1, [])
    else (0, ["Too short (minimum 8 characters)"])
  let s2 := if password.any pyIsLower then (s1.1 + 1, s1.2)
    else (s1.1, s1.2 ++ ["Add lowercase letters"])
  let s3 := if password.any pyIsUpper then (s2.1 + 1, s2.2)
    else (s2.1, s2.2 ++ ["Add uppercase letters"])
  let s4 := if password.any pyIsDigit then (s3.1 + 1, s3.2)
    else (s3.1, s3.2 ++ ["Add numbers"])
  let s5 := if password.any (fun c => symbols.contains c) then (s4.1 + 1, s4.2)
    else (s4.1, s4.2 ++ ["Add special characters"])
  let strength :=
    if 5 ≤ s5.1 then "Strong 🟢"
    else if 3 ≤ s5.1 then "Medium 🟡"
    else "Weak 🔴"
  ⟨strength, s5.1, s5.2⟩

/-- The length part of the score, as both the source and the spec state it. -/
def claimLengthScore (s : List Char) : Nat :=
  if 12 ≤ s.length then 2 else if 8 ≤ s.length then 1 else 0

/-- The spec's symbol predicate: any non-alphanumeric, non-whitespace character.
Stated from the spec's words for comparison with the source's
`c in string.punctuation` check. -/
def claimIsSymbol (c : Char) : Bool :=
  !(pyIsLower c || pyIsUpper c || pyIsDigit c) && !(pyIsSpace c)

/-- The score as described by the spec sentence for `evaluateStrength`
(symbol = non-alphanumeric non-whitespace).  Stated from the spec's words for
comparison with `check_strength`. -/
def claimScore (s : List Char) : Nat :=
  claimLengthScore s + (if s.any pyIsLower then 1 else 0) + (if s.any pyIsUpper then 1 else 0) +
    (if s.any pyIsDigit then 1 else 0) + (if s.any claimIsSymbol then 1 else 0)

/-- The feedback list as described by the spec sentence for `evaluateStrength`
(fixed message per failed check, in check order, symbol = non-alphanumeric
non-whitespace). -/
def claimFeedback (s : List Char) : List String :=
  (if 8 ≤ s.length then [] else ["Too short (minimum 8 characters)"]) ++
    ((if s.any pyIsLower then [] else ["Add lowercase letters"]) ++
      ((if s.any pyIsUpper then [] else ["Add uppercase letters"]) ++
        ((if s.any pyIsDigit then [] else ["Add numbers"]) ++
          (if s.any claimIsSymbol then [] else ["Add special characters"]))))

/-- Like `claimScore` but with the symbol check the source actually performs:
membership in the 32 ASCII punctuation characters. -/
def amendedScore (s : List Char) : Nat :=
  claimLengthScore s + (if s.any pyIsLower then 1 else 0) + (if s.any pyIsUpper then 1 else 0) +
    (if s.any pyIsDigit then 1 else 0) +
    (if s.any (fun c => symbols.contains c) then 1 else 0)

/-- Like `claimFeedback` but with the symbol check the source actually performs. -/
def amendedFeedback (s : List Char) : List String :=
  (if 8 ≤ s.length then [] else ["Too short (minimum 8 characters)"]) ++
    ((if s.any pyIsLower then [] else ["Add lowercase letters"]) ++
      ((if s.any pyIsUpper then [] else ["Add uppercase letters"]) ++
        ((if s.any pyIsDigit then [] else ["Add numbers"]) ++
          (if s.any (fun c => symbols.contains c) then [] else ["Add special characters"]))))

/-- A 12-character candidate whose only symbol-like character is the control
character `\x01`: non-alphanumeric and non-whitespace, but not in
`string.punctuation`. -/
def strengthProbe : List Char :=
  ['a', 'B', '1', '\x01', 'a', 'B', '1', 'a', 'B', '1', 'a', 'B']

/-- A concrete valid configuration (length 12, all classes, no exclusion). -/
def cfg0 : GenConfig := ⟨12, true, true, true, true, false⟩

/-- A concrete valid configuration with `exclude_ambiguous = True`. -/
def cfgEx : GenConfig := ⟨12, true, true, true, true, true⟩

/-- The identity stream, used as a concrete random source in witnesses. -/
def natId : Nat → Nat := fun t => t

/-! ### Helper lemmas: the shuffle is a permutation -/

lemma cons_set_perm (t : List Char) : ∀ (m : Nat) (x b : Char),
    t[m]? = some b → (b :: t.set m x).Perm (x :: t) := by
  induction t with
  | nil => intro m x b h; simp at h
  | cons y t ih =>
    intro m x b h
    cases m with
    | zero =>
      simp only [List.getElem?_cons_zero, Option.some.injEq] at h
      subst h
      simpa using List.Perm.swap x y t
    | succ m =>
      simp only [List.getElem?_cons_succ] at h
      simp only [List.set_cons_succ]
      exact ((List.Perm.swap y b _).trans ((ih m x b h).cons y)).trans (List.Perm.swap x y t)

lemma set_set_swap_perm (l : List Char) : ∀ (i j : Nat) (a b : Char),
    l[i]? = some a → l[j]? = some b → ((l.set i b).set j a).Perm l := by
  induction l with
  | nil => intro i j a b hi _; simp at hi
  | cons x t ih =>
    intro i j a b hi hj
    cases i with
    | zero =>
      simp only [List.getElem?_cons_zero, Option.some.injEq] at hi
      subst hi
      cases j with
      | zero =>
        simp only [List.getElem?_cons_zero, Option.some.injEq] at hj
        subst hj
        simp
      | succ j =>
        simp only [List.getElem?_cons_succ] at hj
        simp only [List.set_cons_zero, List.set_cons_succ]
        exact cons_set_perm t j x b hj
    | succ i =>
      simp only [List.getElem?_cons_succ] at hi
      cases j with
      | zero =>
        simp only [List.getElem?_cons_zero, Option.some.injEq] at hj
        subst hj
        simp only [List.set_cons_succ, List.set_cons_zero]
        exact cons_set_perm t i x a hi
      | succ j =>
        simp only [List.getElem?_cons_succ] at hj
        simp only [List.set_cons_succ]
        exact (ih i j a b hi hj).cons x

lemma listSwap_perm (l : List Char) (i j : Nat) : (listSwap l i j).Perm l := by
  unfold listSwap
  cases hi : l[i]? with
  | none => simp
  | some a =>
    cases hj : l[j]? with
    | none => simp
    | some b => exact set_set_swap_perm l i j a b hi hj

lemma shuffleRounds_perm (d : Nat → Nat) :
    ∀ (i : Nat) (l : List Char) (t : Nat), (shuffleRounds d l i t).Perm l := by
  intro i
  induction i with
  | zero => intro l t; simp [shuffleRounds]
  | succ i ih =>
    intro l t
    exact (ih _ (t + 1)).trans (listSwap_perm l (i + 1) (d t % (i + 2)))

lemma randomShuffle_perm (d : Nat → Nat) (l : List Char) : (randomShuffle d l).Perm l :=
  shuffleRounds_perm d (l.length - 1) l 0

lemma randomShuffle_length (d : Nat → Nat) (l : List Char) :
    (randomShuffle d l).length = l.length :=
  (randomShuffle_perm d l).length_eq

lemma randomShuffle_mem (d : Nat → Nat) (l : List Char) (c : Char) :
    c ∈ randomShuffle d l ↔ c ∈ l :=
  (randomShuffle_perm d l).mem_iff

/-! ### Helper lemmas: draws land in their pools -/

lemma secChoice_mem (sec : Nat → Nat) (t : Nat) (l : List Char) (h : l ≠ []) :
    secChoice sec t l ∈ l := by
  have hlen : 0 < l.length := List.length_pos.2 h
  have hlt : sec t % l.length < l.length := Nat.mod_lt _ hlen
  unfold secChoice
  simp only [List.getD_eq_getElem?_getD, List.getElem?_eq_getElem hlt, Option.getD_some]
  exact List.getElem_mem hlt

lemma lowerPool_ne_nil (b : Bool) : lowerPool b ≠ [] := by cases b <;> decide

lemma upperPool_ne_nil (b : Bool) : upperPool b ≠ [] := by cases b <;> decide

lemma digitPool_ne_nil (b : Bool) : digitPool b ≠ [] := by cases b <;> decide

lemma symbols_ne_nil : symbols ≠ [] := by decide

lemma lowerPool_subset (b : Bool) : lowerPool b ⊆ lowercase := by
  cases b
  · exact fun _ h => h
  · exact List.filter_subset' _

lemma upperPool_subset (b : Bool) : upperPool b ⊆ uppercase := by
  cases b
  · exact fun _ h => h
  · exact List.filter_subset' _

lemma digitPool_subset (b : Bool) : digitPool b ⊆ digits := by
  cases b
  · exact fun _ h => h
  · exact List.filter_subset' _

lemma poolOf_eq_nil_iff (cfg : GenConfig) : poolOf cfg = [] ↔ enabledCount cfg = 0 := by
  unfold poolOf enabledCount
  cases hul : cfg.use_lower <;> cases huu : cfg.use_upper <;>
    cases hud : cfg.use_digits <;> cases hus : cfg.use_symbols <;>
      simp [lowerPool_ne_nil, upperPool_ne_nil, digitPool_ne_nil, symbols_ne_nil]

lemma enabledCount_le_four (cfg : GenConfig) : enabledCount cfg ≤ 4 := by
  unfold enabledCount
  cases hul : cfg.use_lower <;> cases huu : cfg.use_upper <;>
    cases hud : cfg.use_digits <;> cases hus : cfg.use_symbols <;> decide

lemma requiredOf_length (cfg : GenConfig) (sec : Nat → Nat) :
    (requiredOf cfg sec).length = enabledCount cfg := by
  unfold requiredOf enabledCount
  cases hul : cfg.use_lower <;> cases huu : cfg.use_upper <;>
    cases hud : cfg.use_digits <;> cases hus : cfg.use_symbols <;> simp

lemma fillersOf_length (cfg : GenConfig) (sec : Nat → Nat) :
    (fillersOf cfg sec).length = cfg.length - enabledCount cfg := by
  simp [fillersOf]

lemma poolOf_ne_nil (cfg : GenConfig) (hk : 1 ≤ enabledCount cfg) : poolOf cfg ≠ [] := by
  intro h
  rw [poolOf_eq_nil_iff] at h
  omega

/-- The success path of `generate_password`, made explicit. -/
lemma generate_password_success (cfg : GenConfig) (sec ins : Nat → Nat)
    (hist : List (List Char)) (h4 : ¬ cfg.length < 4) (hk : 1 ≤ enabledCount cfg) :
    generate_password cfg sec ins hist =
      (PGResult.password (randomShuffle ins (requiredOf cfg sec ++ fillersOf cfg sec)),
        hist ++ [randomShuffle ins (requiredOf cfg sec ++ fillersOf cfg sec)]) := by
  unfold generate_password
  rw [if_neg h4, if_neg (poolOf_ne_nil cfg hk)]

lemma fillersOf_subset_pool (cfg : GenConfig) (sec : Nat → Nat) (hk : 1 ≤ enabledCount cfg) :
    ∀ c ∈ fillersOf cfg sec, c ∈ poolOf cfg := by
  intro c hc
  unfold fillersOf at hc
  simp only [List.mem_map, List.mem_range] at hc
  obtain ⟨i, _, rfl⟩ := hc
  exact secChoice_mem sec _ _ (poolOf_ne_nil cfg hk)

lemma requiredOf_subset_pool (cfg : GenConfig) (sec : Nat → Nat) :
    ∀ c ∈ requiredOf cfg sec, c ∈ poolOf cfg := by
  intro c hc
  unfold requiredOf at hc
  unfold poolOf
  simp only [List.mem_append] at hc ⊢
  rcases hc with h | h | h | h
  · by_cases hul : cfg.use_lower = true
    · simp only [hul, if_true, List.mem_singleton] at h
      subst h
      exact Or.inl (by simp only [hul, if_true]
                       exact secChoice_mem sec 0 _ (lowerPool_ne_nil _))
    · simp only [if_neg hul, List.not_mem_nil] at h
  · by_cases huu : cfg.use_upper = true
    · simp only [huu, if_true, List.mem_singleton] at h
      subst h
      exact Or.inr (Or.inl (by simp only [huu, if_true]
                               exact secChoice_mem sec _ _ (upperPool_ne_nil _)))
    · simp only [if_neg huu, List.not_mem_nil] at h
  · by_cases hud : cfg.use_digits = true
    · simp only [hud, if_true, List.mem_singleton] at h
      subst h
      exact Or.inr (Or.inr (Or.inl (by simp only [hud, if_true]
                                       exact secChoice_mem sec _ _ (digitPool_ne_nil _))))
    · simp only [if_neg hud, List.not_mem_nil] at h
  · by_cases hus : cfg.use_symbols = true
    · simp only [hus, if_true, List.mem_singleton] at h
      subst h
      exact Or.inr (Or.inr (Or.inr (by simp only [hus, if_true]
                                       exact secChoice_mem sec _ _ symbols_ne_nil)))
    · simp only [if_neg hus, List.not_mem_nil] at h

/-- Every character of the generated password comes from `char_pool`. -/
lemma password_chars_subset_pool (cfg : GenConfig) (sec ins : Nat → Nat)
    (hk : 1 ≤ enabledCount cfg) :
    ∀ c ∈ randomShuffle ins (requiredOf cfg sec ++ fillersOf cfg sec), c ∈ poolOf cfg := by
  intro c hc
  rw [randomShuffle_mem, List.mem_append] at hc
  rcases hc with h | h
  · exact requiredOf_subset_pool cfg sec c h
  · exact fillersOf_subset_pool cfg sec hk c h

/-- With exclusion on, no ambiguous character survives in `char_pool`. -/
lemma ambiguous_not_in_pool (cfg : GenConfig) (hex : cfg.exclude_ambiguous = true) :
    ∀ c ∈ (['l', 'o', 'I', 'O', '0', '1'] : List Char), c ∉ poolOf cfg := by
  intro c hc hmem
  unfold poolOf at hmem
  rw [hex] at hmem
  have notA : ∀ x ∈ (['l', 'o', 'I', 'O', '0', '1'] : List Char), x ∉ lowerPool true := by
    decide
  have notB : ∀ x ∈ (['l', 'o', 'I', 'O', '0', '1'] : List Char), x ∉ upperPool true := by
    decide
  have notC : ∀ x ∈ (['l', 'o', 'I', 'O', '0', '1'] : List Char), x ∉ digitPool true := by
    decide
  have notD : ∀ x ∈ (['l', 'o', 'I', 'O', '0', '1'] : List Char), x ∉ symbols := by
    decide
  simp only [List.mem_append] at hmem
  rcases hmem with h | h | h | h
  · by_cases hul : cfg.use_lower = true
    · rw [if_pos hul] at h
      exact notA c hc h
    · rw [if_neg hul] at h
      exact List.not_mem_nil c h
  · by_cases huu : cfg.use_upper = true
    · rw [if_pos huu] at h
      exact notB c hc h
    · rw [if_neg huu] at h
      exact List.not_mem_nil c h
  · by_cases hud : cfg.use_digits = true
    · rw [if_pos hud] at h
      exact notC c hc h
    · rw [if_neg hud] at h
      exact List.not_mem_nil c h
  · by_cases hus : cfg.use_symbols = true
    · rw [if_pos hus] at h
      exact notD c hc h
    · rw [if_neg hus] at h
      exact List.not_mem_nil c h

/-! ### Claim theorems -/

/-- C1: for every valid `GenerationConfig` (length ≥ max(4, k) where
k = |enabledClasses| ≥ 1), the credential returned by `generate_password`
contains at least one character from every enabled class. -/
theorem generate_password_class_coverage (cfg : GenConfig) (sec ins : Nat → Nat)
    (hist : List (List Char)) (hk : 1 ≤ enabledCount cfg)
    (hl : max 4 (enabledCount cfg) ≤ cfg.length) :
    ∃ pwd, (generate_password cfg sec ins hist).1 = PGResult.password pwd ∧
      (cfg.use_lower = true → ∃ c, c ∈ pwd ∧ c ∈ lowercase) ∧
      (cfg.use_upper = true → ∃ c, c ∈ pwd ∧ c ∈ uppercase) ∧
      (cfg.use_digits = true → ∃ c, c ∈ pwd ∧ c ∈ digits) ∧
      (cfg.use_symbols = true → ∃ c, c ∈ pwd ∧ c ∈ symbols) := by
  have h4 : ¬ cfg.length < 4 := by
    have := le_trans (le_max_left 4 (enabledCount cfg)) hl
    omega
  refine ⟨_, by rw [generate_password_success cfg sec ins hist h4 hk], ?_, ?_, ?_, ?_⟩
  · intro hul
    refine ⟨secChoice sec 0 (lowerPool cfg.exclude_ambiguous), ?_,
      lowerPool_subset _ (secChoice_mem sec 0 _ (lowerPool_ne_nil _))⟩
    rw [randomShuffle_mem]
    apply List.mem_append_left
    unfold requiredOf
    exact List.mem_append_left _ (by rw [if_pos hul]; exact List.mem_singleton.2 rfl)
  · intro huu
    refine ⟨secChoice sec cfg.use_lower.toNat (upperPool cfg.exclude_ambiguous), ?_,
      upperPool_subset _ (secChoice_mem sec _ _ (upperPool_ne_nil _))⟩
    rw [randomShuffle_mem]
    apply List.mem_append_left
    unfold requiredOf
    exact List.mem_append_right _ (List.mem_append_left _
      (by rw [if_pos huu]; exact List.mem_singleton.2 rfl))
  · intro hud
    refine ⟨secChoice sec (cfg.use_lower.toNat + cfg.use_upper.toNat)
      (digitPool cfg.exclude_ambiguous), ?_,
      digitPool_subset _ (secChoice_mem sec _ _ (digitPool_ne_nil _))⟩
    rw [randomShuffle_mem]
    apply List.mem_append_left
    unfold requiredOf
    exact List.mem_append_right _ (List.mem_append_right _ (List.mem_append_left _
      (by rw [if_pos hud]; exact List.mem_singleton.2 rfl)))
  · intro hus
    refine ⟨secChoice sec (cfg.use_lower.toNat + cfg.use_upper.toNat + cfg.use_digits.toNat)
      symbols, ?_, secChoice_mem sec _ _ symbols_ne_nil⟩
    rw [randomShuffle_mem]
    apply List.mem_append_left
    unfold requiredOf
    exact List.mem_append_right _ (List.mem_append_right _ (List.mem_append_right _
      (by rw [if_pos hus]; exact List.mem_singleton.2 rfl)))

theorem generate_password_class_coverage_witness :
    1 ≤ enabledCount cfg0 ∧ max 4 (enabledCount cfg0) ≤ cfg0.length ∧
      ∃ pwd, (generate_password cfg0 natId natId []).1 = PGResult.password pwd ∧
        (cfg0.use_lower = true → ∃ c, c ∈ pwd ∧ c ∈ lowercase) ∧
        (cfg0.use_upper = true → ∃ c, c ∈ pwd ∧ c ∈ uppercase) ∧
        (cfg0.use_digits = true → ∃ c, c ∈ pwd ∧ c ∈ digits) ∧
        (cfg0.use_symbols = true → ∃ c, c ∈ pwd ∧ c ∈ symbols) :=
  ⟨by decide, by decide,
    generate_password_class_coverage cfg0 natId natId [] (by decide) (by decide)⟩

/-- C2: for every valid `GenerationConfig`, `generate_password` returns a
credential whose length is exactly `config.length`. -/
theorem generate_password_exact_length (cfg : GenConfig) (sec ins : Nat → Nat)
    (hist : List (List Char)) (hk : 1 ≤ enabledCount cfg)
    (hl : max 4 (enabledCount cfg) ≤ cfg.length) :
    ∃ pwd, (generate_password cfg sec ins hist).1 = PGResult.password pwd ∧
      pwd.length = cfg.length := by
  have h4 : ¬ cfg.length < 4 := by
    have := le_trans (le_max_left 4 (enabledCount cfg)) hl
    omega
  refine ⟨_, by rw [generate_password_success cfg sec ins hist h4 hk], ?_⟩
  rw [randomShuffle_length, List.length_append, requiredOf_length, fillersOf_length]
  have hkl : enabledCount cfg ≤ cfg.length := le_trans (le_max_right 4 _) hl
  omega

theorem generate_password_exact_length_witness :
    1 ≤ enabledCount cfg0 ∧ max 4 (enabledCount cfg0) ≤ cfg0.length ∧
      ∃ pwd, (generate_password cfg0 natId natId []).1 = PGResult.password pwd ∧
        pwd.length = cfg0.length :=
  ⟨by decide, by decide,
    generate_password_exact_length cfg0 natId natId [] (by decide) (by decide)⟩

/-- C3: the final shuffle does NOT use the cryptographically secure source.
Two runs of `generate_password` on the same valid config that consume the very
same secure stream but differ in the state of the non-cryptographic generator
(the `random` module driving `random.shuffle`) produce different credentials:
the output depends on the insecure stream, refuting the claim on the code. -/
theorem generate_password_depends_on_insecure_shuffle :
    (generate_password ⟨5, false, true, false, false, false⟩ natId (fun _ => 0) []).1 ≠
      (generate_password ⟨5, false, true, false, false, false⟩ natId (fun _ => 1) []).1 := by
  decide

/-- C4: `generate_password` fails with the invalid-length error exactly when the
length is below the floor, fails with the no-class error exactly when no class
is enabled and the length is acceptable, and returns a credential exactly when
the config is valid. -/
theorem generate_password_error_characterization (cfg : GenConfig) (sec ins : Nat → Nat)
    (hist : List (List Char)) :
    (((generate_password cfg sec ins hist).1 = PGResult.error invalid_length_msg) ↔
      (cfg.length < 4 ∨ cfg.length < enabledCount cfg)) ∧
    (((generate_password cfg sec ins hist).1 = PGResult.error no_class_msg) ↔
      (¬ cfg.length < 4 ∧ enabledCount cfg = 0)) ∧
    ((∃ p, (generate_password cfg sec ins hist).1 = PGResult.password p) ↔
      (1 ≤ enabledCount cfg ∧ max 4 (enabledCount cfg) ≤ cfg.length)) := by
  have hk4 := enabledCount_le_four cfg
  by_cases h4 : cfg.length < 4
  · have hres : (generate_password cfg sec ins hist).1 = PGResult.error invalid_length_msg := by
      unfold generate_password
      rw [if_pos h4]
    rw [hres]
    refine ⟨iff_of_true rfl (Or.inl h4), ⟨?_, ?_⟩, ⟨?_, ?_⟩⟩
    · intro h
      exact absurd h (by decide)
    · rintro ⟨hn4, _⟩
      exact absurd h4 hn4
    · rintro ⟨p, hp⟩
      exact PGResult.noConfusion hp
    · rintro ⟨_, hmax⟩
      have : 4 ≤ cfg.length := le_trans (le_max_left 4 _) hmax
      omega
  · by_cases hk : enabledCount cfg = 0
    · have hres : (generate_password cfg sec ins hist).1 = PGResult.error no_class_msg := by
        unfold generate_password
        rw [if_neg h4, if_pos ((poolOf_eq_nil_iff cfg).2 hk)]
      rw [hres]
      refine ⟨⟨?_, ?_⟩, iff_of_true rfl ⟨h4, hk⟩, ⟨?_, ?_⟩⟩
      · intro h
        exact absurd h (by decide)
      · intro h
        rcases h with h | h
        · exact absurd h h4
        · omega
      · rintro ⟨p, hp⟩
        exact PGResult.noConfusion hp
      · rintro ⟨h1, _⟩
        omega
    · have hk1 : 1 ≤ enabledCount cfg := by omega
      have hres : (generate_password cfg sec ins hist).1 =
          PGResult.password (randomShuffle ins (requiredOf cfg sec ++ fillersOf cfg sec)) := by
        rw [generate_password_success cfg sec ins hist h4 hk1]
      rw [hres]
      refine ⟨⟨?_, ?_⟩, ⟨?_, ?_⟩, ⟨?_, ?_⟩⟩
      · intro h
        exact PGResult.noConfusion h
      · intro h
        rcases h with h | h
        · exact absurd h h4
        · omega
      · intro h
        exact PGResult.noConfusion h
      · rintro ⟨_, h0⟩
        omega
      · intro _
        refine ⟨hk1, ?_⟩
        rw [Nat.max_le]
        omega
      · intro _
        exact ⟨_, rfl⟩

theorem generate_password_error_characterization_witness :
    (((generate_password cfg0 natId natId []).1 = PGResult.error invalid_length_msg) ↔
      (cfg0.length < 4 ∨ cfg0.length < enabledCount cfg0)) ∧
    (((generate_password cfg0 natId natId []).1 = PGResult.error no_class_msg) ↔
      (¬ cfg0.length < 4 ∧ enabledCount cfg0 = 0)) ∧
    ((∃ p, (generate_password cfg0 natId natId []).1 = PGResult.password p) ↔
      (1 ≤ enabledCount cfg0 ∧ max 4 (enabledCount cfg0) ≤ cfg0.length)) :=
  generate_password_error_characterization cfg0 natId natId []

/-- C5: the history is updated atomically: on any failure of `generate_password`
it is unchanged, on success exactly the generated credential is appended once;
`generate_passphrase` (which has no failure path) also appends exactly once. -/
theorem history_append_atomicity (cfg : GenConfig) (word_count : Nat) (sec ins : Nat → Nat)
    (hist : List (List Char)) :
    ((generate_password cfg sec ins hist).2 =
      match (generate_password cfg sec ins hist).1 with
      | PGResult.password p => hist ++ [p]
      | PGResult.error _ => hist) ∧
    ((generate_passphrase word_count sec hist).2 =
      hist ++ [(generate_passphrase word_count sec hist).1]) := by
  constructor
  · unfold generate_password
    split_ifs <;> rfl
  · rfl

theorem history_append_atomicity_witness :
    ((generate_password cfg0 natId natId []).2 =
      match (generate_password cfg0 natId natId []).1 with
      | PGResult.password p => [] ++ [p]
      | PGResult.error _ => []) ∧
    ((generate_passphrase 4 natId []).2 = [] ++ [(generate_passphrase 4 natId []).1]) :=
  history_append_atomicity cfg0 4 natId natId []

/-- C6: with `exclude_ambiguous = True`, the credential contains no character of
any enabled class's ambiguous subset (`l`, `o` for lowercase; `I`, `O` for
uppercase; `0`, `1` for digits; symbols have none). -/
theorem generate_password_excludes_ambiguous (cfg : GenConfig) (sec ins : Nat → Nat)
    (hist : List (List Char)) (hk : 1 ≤ enabledCount cfg)
    (hl : max 4 (enabledCount cfg) ≤ cfg.length) (hex : cfg.exclude_ambiguous = true) :
    ∃ pwd, (generate_password cfg sec ins hist).1 = PGResult.password pwd ∧
      (cfg.use_lower = true → 'l' ∉ pwd ∧ 'o' ∉ pwd) ∧
      (cfg.use_upper = true → 'I' ∉ pwd ∧ 'O' ∉ pwd) ∧
      (cfg.use_digits = true → '0' ∉ pwd ∧ '1' ∉ pwd) := by
  have h4 : ¬ cfg.length < 4 := by
    have := le_trans (le_max_left 4 (enabledCount cfg)) hl
    omega
  refine ⟨_, by rw [generate_password_success cfg sec ins hist h4 hk], ?_, ?_, ?_⟩
  all_goals intro _
  all_goals constructor
  all_goals intro hmem
  · exact ambiguous_not_in_pool cfg hex 'l' (by decide)
      (password_chars_subset_pool cfg sec ins hk _ hmem)
  · exact ambiguous_not_in_pool cfg hex 'o' (by decide)
      (password_chars_subset_pool cfg sec ins hk _ hmem)
  · exact ambiguous_not_in_pool cfg hex 'I' (by decide)
      (password_chars_subset_pool cfg sec ins hk _ hmem)
  · exact ambiguous_not_in_pool cfg hex 'O' (by decide)
      (password_chars_subset_pool cfg sec ins hk _ hmem)
  · exact ambiguous_not_in_pool cfg hex '0' (by decide)
      (password_chars_subset_pool cfg sec ins hk _ hmem)
  · exact ambiguous_not_in_pool cfg hex '1' (by decide)
      (password_chars_subset_pool cfg sec ins hk _ hmem)

theorem generate_password_excludes_ambiguous_witness :
    1 ≤ enabledCount cfgEx ∧ max 4 (enabledCount cfgEx) ≤ cfgEx.length ∧
      cfgEx.exclude_ambiguous = true ∧
      ∃ pwd, (generate_password cfgEx natId natId []).1 = PGResult.password pwd ∧
        (cfgEx.use_lower = true → 'l' ∉ pwd ∧ 'o' ∉ pwd) ∧
        (cfgEx.use_upper = true → 'I' ∉ pwd ∧ 'O' ∉ pwd) ∧
        (cfgEx.use_digits = true → '0' ∉ pwd ∧ '1' ∉ pwd) :=
  ⟨by decide, by decide, by decide,
    generate_password_excludes_ambiguous cfgEx natId natId [] (by decide) (by decide) (by decide)⟩

/-- C7 counterexample: on the 12-character candidate whose only symbol-like
character is the control character `\x01` (non-alphanumeric, non-whitespace,
but not ASCII punctuation), the claim's formula gives score 6 and empty
feedback while `check_strength` gives score 5 and a symbol complaint. -/
theorem check_strength_symbol_predicate_counterexample :
    claimScore strengthProbe = 6 ∧ claimFeedback strengthProbe = [] ∧
      (check_strength strengthProbe).score = 5 ∧
      (check_strength strengthProbe).feedback = ["Add special characters"] := by
  decide

lemma check_strength_score (s : List Char) : (check_strength s).score = amendedScore s := by
  unfold check_strength amendedScore claimLengthScore
  by_cases h12 : 12 ≤ s.length <;> by_cases h8 : 8 ≤ s.length <;>
    by_cases hl : s.any pyIsLower = true <;> by_cases hu : s.any pyIsUpper = true <;>
      by_cases hd : s.any pyIsDigit = true <;>
        by_cases hp : s.any (fun c => symbols.contains c) = true <;>
          first
          | omega
          | (simp only [h12, h8, hl, hu, hd, hp, eq_self_iff_true, if_true, if_false,
              ite_true, ite_false] <;> decide)

lemma check_strength_feedback (s : List Char) :
    (check_strength s).feedback = amendedFeedback s := by
  unfold check_strength amendedFeedback
  by_cases h12 : 12 ≤ s.length <;> by_cases h8 : 8 ≤ s.length <;>
    by_cases hl : s.any pyIsLower = true <;> by_cases hu : s.any pyIsUpper = true <;>
      by_cases hd : s.any pyIsDigit = true <;>
        by_cases hp : s.any (fun c => symbols.contains c) = true <;>
          first
          | omega
          | (simp only [h12, h8, hl, hu, hd, hp, eq_self_iff_true, if_true, if_false,
              ite_true, ite_false] <;> decide)

lemma check_strength_strength_eq (s : List Char) :
    (check_strength s).strength =
      (if 5 ≤ (check_strength s).score then "Strong 🟢"
       else if 3 ≤ (check_strength s).score then "Medium 🟡"
       else "Weak 🔴") :=
  rfl

lemma amendedFeedback_nil_iff (s : List Char) :
    amendedFeedback s = [] ↔
      (8 ≤ s.length ∧ s.any pyIsLower = true ∧ s.any pyIsUpper = true ∧
        s.any pyIsDigit = true ∧ s.any (fun c => symbols.contains c) = true) := by
  unfold amendedFeedback
  by_cases h8 : 8 ≤ s.length <;>
    by_cases hl : s.any pyIsLower = true <;> by_cases hu : s.any pyIsUpper = true <;>
      by_cases hd : s.any pyIsDigit = true <;>
        by_cases hp : s.any (fun c => symbols.contains c) = true <;>
          (simp only [h8, hl, hu, hd, hp, eq_self_iff_true, if_true, if_false,
            ite_true, ite_false] <;> decide)

lemma amendedScore_six (s : List Char) (h : amendedScore s = 6) :
    8 ≤ s.length ∧ s.any pyIsLower = true ∧ s.any pyIsUpper = true ∧
      s.any pyIsDigit = true ∧ s.any (fun c => symbols.contains c) = true := by
  unfold amendedScore claimLengthScore at h
  by_cases h12 : 12 ≤ s.length <;> by_cases h8 : 8 ≤ s.length <;>
    by_cases hl : s.any pyIsLower = true <;> by_cases hu : s.any pyIsUpper = true <;>
      by_cases hd : s.any pyIsDigit = true <;>
        by_cases hp : s.any (fun c => symbols.contains c) = true <;>
          first
          | omega
          | (refine ⟨h8, hl, hu, hd, hp⟩)
          | (exfalso
             simp only [h12, h8, hl, hu, hd, hp, eq_self_iff_true, Bool.false_eq_true,
               if_true, if_false, ite_true, ite_false] at h <;> omega)

/-- C7 (amended): `check_strength` is total and computes exactly the claim's
score and feedback with the symbol check taken to be membership in the 32 ASCII
punctuation characters (other non-alphanumeric non-whitespace characters score
no point); rating thresholds are as claimed; the feedback list is empty exactly
when the length is ≥ 8 and all four class checks pass, and in particular it is
empty whenever the score is 6. -/
theorem check_strength_characterization (s : List Char) :
    (check_strength s).score = amendedScore s ∧
    (check_strength s).feedback = amendedFeedback s ∧
    ((check_strength s).strength = "Strong 🟢" ↔ 5 ≤ amendedScore s) ∧
    ((check_strength s).strength = "Medium 🟡" ↔
      (3 ≤ amendedScore s ∧ amendedScore s ≤ 4)) ∧
    ((check_strength s).strength = "Weak 🔴" ↔ amendedScore s ≤ 2) ∧
    ((check_strength s).feedback = [] ↔
      (8 ≤ s.length ∧ s.any pyIsLower = true ∧ s.any pyIsUpper = true ∧
        s.any pyIsDigit = true ∧ s.any (fun c => symbols.contains c) = true)) ∧
    (amendedScore s = 6 → (check_strength s).feedback = []) := by
  have hs := check_strength_score s
  have hf := check_strength_feedback s
  have hstr := check_strength_strength_eq s
  rw [hs] at hstr
  refine ⟨hs, hf, ?_, ?_, ?_, ?_, ?_⟩
  · rw [hstr]
    split_ifs <;> simp_all <;> omega
  · rw [hstr]
    split_ifs <;> simp_all <;> omega
  · rw [hstr]
    split_ifs <;> simp_all <;> omega
  · rw [hf]
    exact amendedFeedback_nil_iff s
  · intro h6
    rw [hf]
    exact (amendedFeedback_nil_iff s).2 (amendedScore_six s h6)

theorem check_strength_characterization_witness :
    (check_strength "abc".toList).score = amendedScore "abc".toList ∧
    (check_strength "abc".toList).feedback = amendedFeedback "abc".toList ∧
    ((check_strength "abc".toList).strength = "Strong 🟢" ↔ 5 ≤ amendedScore "abc".toList) ∧
    ((check_strength "abc".toList).strength = "Medium 🟡" ↔
      (3 ≤ amendedScore "abc".toList ∧ amendedScore "abc".toList ≤ 4)) ∧
    ((check_strength "abc".toList).strength = "Weak 🔴" ↔ amendedScore "abc".toList ≤ 2) ∧
    ((check_strength "abc".toList).feedback = [] ↔
      (8 ≤ "abc".toList.length ∧ "abc".toList.any pyIsLower = true ∧
        "abc".toList.any pyIsUpper = true ∧ "abc".toList.any pyIsDigit = true ∧
        "abc".toList.any (fun c => symbols.contains c) = true)) ∧
    (amendedScore "abc".toList = 6 → (check_strength "abc".toList).feedback = []) :=
  check_strength_characterization "abc".toList

lemma wordChoice_mem (sec : Nat → Nat) (t : Nat) (l : List (List Char)) (h : l ≠ []) :
    wordChoice sec t l ∈ l := by
  have hlen : 0 < l.length := List.length_pos.2 h
  have hlt : sec t % l.length < l.length := Nat.mod_lt _ hlen
  unfold wordChoice
  simp only [List.getD_eq_getElem?_getD, List.getElem?_eq_getElem hlt, Option.getD_some]
  exact List.getElem_mem hlt

lemma pyStr_length_bounds : ∀ n : Nat, n < 100 → 1 ≤ (pyStr n).length ∧ (pyStr n).length ≤ 2 := by
  decide

/-- C8 counterexample: `generate_passphrase(7)` does not fail — the source
performs no word-count validation, so it returns a 7-word credential and
appends it to the history. -/
theorem generate_passphrase_accepts_out_of_range :
    (generate_passphrase 7 (fun _ => 0) []).1 =
      "Alpha-Alpha-Alpha-Alpha-Alpha-Alpha-Alpha0".toList ∧
    (generate_passphrase 7 (fun _ => 0) []).2 =
      ["Alpha-Alpha-Alpha-Alpha-Alpha-Alpha-Alpha0".toList] := by
  decide

/-- C8 (amended): `generate_passphrase` itself performs no range check and
returns a credential (joined capitalized words plus a numeric suffix below 100)
for every word count, appending it to the history; the `[3, 6]` range check is
enforced by the Shell (`main`), whose guard accepts exactly the word counts in
`[3, 6]` before `generate_passphrase` is ever called. -/
theorem generate_passphrase_total_shell_guard (word_count : Nat) (sec : Nat → Nat)
    (hist : List (List Char)) :
    (shellAcceptsWordCount word_count = true ↔ 3 ≤ word_count ∧ word_count ≤ 6) ∧
    (∃ n, n < 100 ∧
      (generate_passphrase word_count sec hist).1 =
        joinHyphen ((List.range word_count).map (fun i => capitalize (wordChoice sec i words))) ++
          pyStr n) ∧
    (generate_passphrase word_count sec hist).2 =
      hist ++ [(generate_passphrase word_count sec hist).1] := by
  refine ⟨?_, ⟨sec word_count % 100, Nat.mod_lt _ (by omega), rfl⟩, rfl⟩
  unfold shellAcceptsWordCount
  simp [Bool.and_eq_true, decide_eq_true_eq]

theorem generate_passphrase_total_shell_guard_witness :
    (shellAcceptsWordCount 7 = true ↔ 3 ≤ 7 ∧ 7 ≤ 6) ∧
    (∃ n, n < 100 ∧
      (generate_passphrase 7 natId []).1 =
        joinHyphen ((List.range 7).map (fun i => capitalize (wordChoice natId i words))) ++
          pyStr n) ∧
    (generate_passphrase 7 natId []).2 = [] ++ [(generate_passphrase 7 natId []).1] :=
  generate_passphrase_total_shell_guard 7 natId []

/-- C9 counterexample: with a secure stream whose suffix draw is 0, the numeric
suffix appended by `generate_passphrase` is `"0"` — a single digit, not the
two-digit suffix the claim describes. -/
theorem generate_passphrase_suffix_one_digit :
    (generate_passphrase 4 (fun _ => 0) []).1 = "Alpha-Alpha-Alpha-Alpha0".toList ∧
      (pyStr 0).length = 1 ∧
      (generate_passphrase 4 (fun _ => 0) []).1.length ≠
        "Alpha-Alpha-Alpha-Alpha".toList.length + 2 := by
  decide

/-- C9 (amended): for every word count in `[3, 6]`, `generate_passphrase`
returns exactly `wordCount` capitalized words drawn from the fixed 35-word
list, joined by `-`, followed by the decimal representation (one or two
digits, not always two) of a uniform draw from `[0, 100)`. -/
theorem generate_passphrase_structure (word_count : Nat) (sec : Nat → Nat)
    (hist : List (List Char)) (h3 : 3 ≤ word_count) (h6 : word_count ≤ 6) :
    words.length = 35 ∧
    ∃ ws n, ws.length = word_count ∧
      (∀ w ∈ ws, ∃ w0, w0 ∈ words ∧ w = capitalize w0) ∧
      n < 100 ∧ 1 ≤ (pyStr n).length ∧ (pyStr n).length ≤ 2 ∧
      (generate_passphrase word_count sec hist).1 = joinHyphen ws ++ pyStr n := by
  refine ⟨by decide,
    (List.range word_count).map (fun i => capitalize (wordChoice sec i words)),
    sec word_count % 100, by simp, ?_, Nat.mod_lt _ (by omega),
    (pyStr_length_bounds _ (Nat.mod_lt _ (by omega))).1,
    (pyStr_length_bounds _ (Nat.mod_lt _ (by omega))).2, rfl⟩
  intro w hw
  simp only [List.mem_map, List.mem_range] at hw
  obtain ⟨i, _, rfl⟩ := hw
  exact ⟨wordChoice sec i words, wordChoice_mem sec i words (by decide), rfl⟩

theorem generate_passphrase_structure_witness :
    words.length = 35 ∧
    ∃ ws n, ws.length = 4 ∧
      (∀ w ∈ ws, ∃ w0, w0 ∈ words ∧ w = capitalize w0) ∧
      n < 100 ∧ 1 ≤ (pyStr n).length ∧ (pyStr n).length ≤ 2 ∧
      (generate_passphrase 4 natId []).1 = joinHyphen ws ++ pyStr n :=
  generate_passphrase_structure 4 natId [] (by decide) (by decide)

/-- C10: removing the ambiguous subset leaves non-empty per-class alphabets
(24 lowercase, 24 uppercase, 8 digits, 32 symbols); hence for every config with
length ≥ 4 and at least one enabled class, with or without exclusion, every
draw samples from a non-empty pool, both error branches are unreachable and
`generate_password` returns a credential. -/
theorem pools_nonempty_generation_total :
    ((lowerPool true).length = 24 ∧ (upperPool true).length = 24 ∧
      (digitPool true).length = 8 ∧ symbols.length = 32) ∧
    (∀ b : Bool, lowerPool b ≠ [] ∧ upperPool b ≠ [] ∧ digitPool b ≠ []) ∧
    symbols ≠ [] ∧
    (∀ (cfg : GenConfig) (sec ins : Nat → Nat) (hist : List (List Char)),
      4 ≤ cfg.length → 1 ≤ enabledCount cfg →
        poolOf cfg ≠ [] ∧
          ∃ pwd, (generate_password cfg sec ins hist).1 = PGResult.password pwd) := by
  refine ⟨by decide, ?_, by decide, ?_⟩
  · intro b
    exact ⟨lowerPool_ne_nil b, upperPool_ne_nil b, digitPool_ne_nil b⟩
  · intro cfg sec ins hist h4 hk
    refine ⟨poolOf_ne_nil cfg hk, ?_⟩
    have h4n : ¬ cfg.length < 4 := by omega
    exact ⟨_, by rw [generate_password_success cfg sec ins hist h4n hk]⟩

theorem pools_nonempty_generation_total_witness :
    poolOf cfgEx ≠ [] ∧
      ∃ pwd, (generate_password cfgEx natId natId []).1 = PGResult.password pwd :=
  pools_nonempty_generation_total.2.2.2 cfgEx natId natId [] (by decide) (by decide)
